import Mathlib

/-!
Verification model of the video-editing backend (`src/backend/main.py`).

Python floats are modelled by exact rationals (`ℚ`); all concrete values
appearing in the claims (0.2, 0.05, 0.5, two-digit time fields, percentages)
are exactly representable and the double-precision evaluation of the source
agrees with the rational one on them.  Python `int(...)` truncation toward
zero is `pyInt`; Python's falsy-`or` on optional floats is `pyOr`.
-/

namespace VideoApp

/-- The single-quote character (codepoint 39), the quote delimiter of the
transcoder's filter mini-language. -/
def squote : Char := Char.ofNat 39

/-- The backslash character (codepoint 92), the escape character of the
transcoder's filter mini-language. -/
def bslash : Char := Char.ofNat 92

/-- Python `int(q)` on a real value: truncation toward zero. -/
def pyInt (q : ℚ) : ℤ := if 0 ≤ q then ⌊q⌋ else -⌊-q⌋

/-- Python `v or d` for `v : Optional[float]`: both `None` and `0.0` are
falsy, so either yields the default `d` (source lines 158, 177, 178). -/
def pyOr (v : Option ℚ) (d : ℚ) : ℚ :=
  match v with
  | none => d
  | some x => if x = 0 then d else x

/-- Value of a decimal digit character, `none` on a non-digit. -/
def digitVal (c : Char) : Option ℕ :=
  if c.isDigit then some (c.toNat - 48) else none

/-- Parse a nonempty all-digit character list as a natural number
(the core of Python `int`/`float` on digit strings). -/
def parseUnsigned (cs : List Char) : Option ℕ :=
  match cs with
  | [] => none
  | c :: rest =>
    (c :: rest).foldlM (fun acc ch => (digitVal ch).map (fun d => acc * 10 + d)) 0

/-- Python `str.split(sep)` for a single-character separator: always returns
at least one (possibly empty) piece. -/
def splitOnSep (sep : Char) : List Char → List (List Char)
  | [] => [[]]
  | c :: rest =>
    if c = sep then [] :: splitOnSep sep rest
    else
      match splitOnSep sep rest with
      | [] => [[c]]
      | g :: gs => (c :: g) :: gs

/-- Model of Python `int(s)` on a character list: optional sign then digits.
(CPython additionally strips surrounding whitespace and allows `_`
separators; no input reaching this function in the program contains those.) -/
def pyParseIntChars (cs : List Char) : Option ℤ :=
  match cs with
  | [] => none
  | c :: rest =>
    if c = '-' then (parseUnsigned rest).map (fun n => -(n : ℤ))
    else if c = '+' then (parseUnsigned rest).map (fun n => (n : ℤ))
    else (parseUnsigned (c :: rest)).map (fun n => (n : ℤ))

/-- Digits with at most one decimal point, value as a rational
(the mantissa form accepted by Python `float`; exponent forms and
`inf`/`nan` never occur in the program's inputs and are not modelled). -/
def parseMantissa (cs : List Char) : Option ℚ :=
  match splitOnSep '.' cs with
  | [ip] => (parseUnsigned ip).map (fun n => (n : ℚ))
  | [ip, fp] =>
    match ip.isEmpty, fp.isEmpty with
    | true, true => none
    | true, false => (parseUnsigned fp).map (fun n => (n : ℚ) / (10 : ℚ) ^ fp.length)
    | false, true => (parseUnsigned ip).map (fun n => (n : ℚ))
    | false, false =>
      match parseUnsigned ip, parseUnsigned fp with
      | some a, some b => some ((a : ℚ) + (b : ℚ) / (10 : ℚ) ^ fp.length)
      | _, _ => none
  | _ => none

/-- Model of Python `float(s)` on a character list: optional sign, mantissa. -/
def pyParseFloatChars (cs : List Char) : Option ℚ :=
  match cs with
  | [] => none
  | c :: rest =>
    if c = '-' then (parseMantissa rest).map (fun q => -q)
    else if c = '+' then parseMantissa rest
    else parseMantissa (c :: rest)

/-- The `try` body of `time_str_to_sec` (source lines 119-122):
`h, m, s = time_str.split(':')` then `int(h) * 3600 + int(m) * 60 + float(s)`.
`none` models the exception cases (wrong number of parts, unparsable part). -/
def timeParse (s : String) : Option ℚ :=
  match splitOnSep ':' s.data with
  | [hs, ms, ss] =>
    match pyParseIntChars hs, pyParseIntChars ms, pyParseFloatChars ss with
    | some hv, some mv, some sv => some ((hv : ℚ) * 3600 + (mv : ℚ) * 60 + sv)
    | _, _, _ => none
  | _ => none

/-- Model of `time_str_to_sec` (source lines 119-124): the bare `except` returns `0.0`
on any parse failure, so the function is total and never raises. -/
def time_str_to_sec (s : String) : ℚ := (timeParse s).getD 0

/-- Two-digit decimal rendering of `n < 100`, the shape of each field of an
`HH:MM:SS.ff` elapsed-time marker. -/
def fmt2 (n : ℕ) : List Char := [Nat.digitChar (n / 10), Nat.digitChar (n % 10)]

/-- Attempt of the regex `time=(\d\x7b2\x7d:\d\x7b2\x7d:\d\x7b2\x7d\.\d\x7b2\x7d)`
(source line 217) at the head of the character list: literal `time=` followed
by the eleven-character `DD:DD:DD.DD` shape; returns the captured group. -/
def matchTimeAt (cs : List Char) : Option (List Char) :=
  match cs with
  | 't' :: 'i' :: 'm' :: 'e' :: '=' :: a :: b :: c :: d :: e :: f :: g :: h :: i :: j :: k :: _ =>
    if a.isDigit && b.isDigit && c = ':' && d.isDigit && e.isDigit && f = ':' &&
       g.isDigit && h.isDigit && i = '.' && j.isDigit && k.isDigit
    then some [a, b, c, d, e, f, g, h, i, j, k] else none
  | _ => none

/-- Search as `re.search` of the elapsed-time pattern: leftmost match attempt over the
line, as the regex engine does. -/
def findTimeMarker : List Char → Option (List Char)
  | [] => none
  | c :: rest =>
    match matchTimeAt (c :: rest) with
    | some t => some t
    | none => findTimeMarker rest

/-- One iteration of the stderr loop (source lines 219-225): search the line
for an elapsed-time marker; if found and the total duration is positive,
report `min(int(current_sec / total_duration * 100), 99)`; otherwise report
nothing. -/
def extractProgress (total_duration : ℚ) (line : String) : Option ℤ :=
  match findTimeMarker line.data with
  | none => none
  | some t =>
    if 0 < total_duration then
      some (min (pyInt (time_str_to_sec (String.mk t) / total_duration * 100)) 99)
    else none

/-- Model of `OverlayMetadata` (source lines 62-71).  `width` and `height` carry the
pydantic field defaults `some 0.2`: a submission that omits the field stores
`0.2`, and only an explicit JSON `null` stores `none`. -/
structure OverlayMetadata where
  id : Option String := none
  type : String
  content : String
  start_time : ℚ
  end_time : ℚ
  x : ℚ
  y : ℚ
  width : Option ℚ := some (1 / 5)
  height : Option ℚ := some (1 / 5)
deriving DecidableEq, Repr

/-- Per-character form of the escaping on source line 159,
`content.replace("'", "'\\''").replace(":", "\\:")`: the two patterns are
distinct single characters and neither replacement contains the other
pattern, so the two sequential global replaces equal this one-pass
character expansion. -/
def escChar (c : Char) : List Char :=
  if c = squote then [squote, bslash, squote, squote]
  else if c = ':' then [bslash, c]
  else [c]

/-- The escaped text (`safe_text`) as a character list. -/
def escapeChars : List Char → List Char
  | [] => []
  | c :: cs => escChar c ++ escapeChars cs

/-- The `safe_text` string (source line 159). -/
def escapeText (s : String) : String := String.mk (escapeChars s.data)

/-- The content as it is recovered by the filter-argument tokenizer from the
emitted expression: colons acquire a (cosmetic) leading backslash, every
other character round-trips exactly. -/
def colEsc : List Char → List Char
  | [] => []
  | c :: cs => (if c = ':' then [bslash, c] else [c]) ++ colEsc cs

/-- Even-rounding of a scaled dimension (source lines 179-180):
`if target % 2 != 0: target -= 1`.  Python `%` on a positive modulus agrees
with `Int.emod`. -/
def evenDown (n : ℤ) : ℤ := if n % 2 ≠ 0 then n - 1 else n

/-- Target pixel size of a scaled overlay (source lines 177-180):
`int((frac or 0.2) * dim)` rounded down to even. -/
def targetW (frac : Option ℚ) (dim : ℤ) : ℤ :=
  evenDown (pyInt (pyOr frac (1 / 5) * (dim : ℚ)))

/-- One stage of the compiled filter graph, the structured content of the
string fragments appended to `filter_complex` (source lines 161-165,
185-189). -/
inductive Stage where
  | drawtext (inLabel : String) (textEsc : String) (fontsize : ℤ) (x y : ℤ)
      (startT endT : ℚ) (outLabel : String)
  | scale (inputIndex : ℤ) (w h : ℤ) (outLabel : String)
  | overlay (inLabel scLabel : String) (x y : ℤ) (startT endT : ℚ) (outLabel : String)
deriving DecidableEq, Repr

/-- The compiler's running state: `input_args`, the stages accumulated in
`filter_complex`, and `last_stream_label` (source lines 147-149). -/
structure CompileState where
  inputArgs : List String
  stages : List Stage
  lastLabel : String
deriving DecidableEq, Repr

/-- Initial compiler state (source lines 147-149): the base video as sole
input, no stages, current stream `[0:v]`. -/
def initState (videoPath : String) : CompileState :=
  { inputArgs := ["-i", videoPath], stages := [], lastLabel := "[0:v]" }

/-- One iteration of the overlay loop (source lines 153-190), at enumerate
index `i`.  `assetExists` is the filesystem predicate `(OVERLAY_DIR / content)
.exists()`; the stored asset path is identified by its `content` key. -/
def stepOverlay (assetExists : String → Bool) (W H : ℤ) (i : ℕ)
    (ov : OverlayMetadata) (st : CompileState) : CompileState :=
  let x_px := pyInt (ov.x * (W : ℚ))
  let y_px := pyInt (ov.y * (H : ℚ))
  if ov.type = "text" then
    let font_size := max 16 (pyInt (pyOr ov.height (1 / 20) * (H : ℚ)))
    let next := "[v" ++ toString (i + 1) ++ "]"
    { st with
      stages := st.stages ++
        [Stage.drawtext st.lastLabel (escapeText ov.content) font_size x_px y_px
          ov.start_time ov.end_time next],
      lastLabel := next }
  else if ov.type = "image" ∨ ov.type = "video" then
    if assetExists ov.content then
      let inputArgs := st.inputArgs ++ ["-i", ov.content]
      let idx : ℤ := (inputArgs.length : ℤ) / 2 - 1
      let sc := "[sc" ++ toString i ++ "]"
      let next := "[v" ++ toString (i + 1) ++ "]"
      { inputArgs := inputArgs,
        stages := st.stages ++
          [Stage.scale idx (targetW ov.width W) (targetW ov.height H) sc,
           Stage.overlay st.lastLabel sc x_px y_px ov.start_time ov.end_time next],
        lastLabel := next }
    else st
  else st

/-- The overlay loop with its enumerate counter. -/
def compileAux (assetExists : String → Bool) (W H : ℤ) :
    ℕ → List OverlayMetadata → CompileState → CompileState
  | _, [], st => st
  | i, ov :: rest, st =>
    compileAux assetExists W H (i + 1) rest (stepOverlay assetExists W H i ov st)

/-- The filter-graph compiler (source lines 146-191): fold the overlay list
over the initial state. -/
def compileFilter (assetExists : String → Bool) (videoPath : String) (W H : ℤ)
    (overlays : List OverlayMetadata) : CompileState :=
  compileAux assetExists W H 0 overlays (initState videoPath)

/-- Semantics of the transcoder's `between(t,a,b)` gate (external contract):
it holds exactly when `a ≤ t ≤ b`. -/
def betweenGate (a b t : ℚ) : Prop := a ≤ t ∧ t ≤ b

/-- The argument portion of the emitted draw-text stage (source lines
162-164), after `drawtext=` and before the output label, as characters:
`text='SAFE':fontcolor=white:fontsize=FS:x=X:y=Y:enable='between(t,ST,EN)'`
with `SAFE` the escaped content and `FS X Y ST EN` the rendered numbers. -/
def drawtextArgsChars (content : String) (fsS xS yS stS enS : List Char) : List Char :=
  "text=".data ++ (squote :: (escapeChars content.data ++ (squote ::
  (':' :: ("fontcolor=white".data ++ (':' :: ("fontsize=".data ++ (fsS ++
  (':' :: ("x=".data ++ (xS ++ (':' :: ("y=".data ++ (yS ++
  (':' :: ("enable=".data ++ (squote :: ("between(t,".data ++ (stS ++
  (',' :: (enS ++ (')' :: [squote]))))))))))))))))))))))

/-- The transcoder's filter-argument tokenizer (external contract, the
`av_get_token` loop): splits on `:` at the top level; outside quotes a
backslash escapes the next character (modelled by the pending-escape flag,
third argument; a trailing backslash is copied literally); a single quote
toggles quoted mode; in quoted mode every character except the closing
quote is literal.  `acc` holds the current token reversed. -/
def splitTokens : List Char → Bool → Bool → List Char → List (List Char)
  | [], _, esc, acc => [(if esc then bslash :: acc else acc).reverse]
  | c :: rest, true, e, acc =>
    if c = squote then splitTokens rest false e acc
    else splitTokens rest true e (c :: acc)
  | c :: rest, false, true, acc => splitTokens rest false false (c :: acc)
  | c :: rest, false, false, acc =>
    if c = ':' then acc.reverse :: splitTokens rest false false []
    else if c = squote then splitTokens rest true false acc
    else if c = bslash then splitTokens rest false true acc
    else splitTokens rest false false (c :: acc)

/-- A character with no role in the filter-argument syntax: not a separator,
not a quote, not an escape.  Rendered numbers consist of such characters. -/
def plainChar (c : Char) : Bool := !(c = ':' || c = squote || c = bslash)

/-- A job-status snapshot write, the record persisted by `save_job_status`
(source lines 83-92). -/
structure Write where
  status : String
  progress : ℤ
  error : Option String
deriving DecidableEq, Repr

/-- The supervisor's environment: probe results, filesystem, and child
process behaviour.  `duration` is the value returned by
`get_video_duration`, which maps every probe failure to `0.0`;
`probeOut` is the stripped stdout of the dimensions probe. -/
structure Env where
  duration : ℚ
  probeOut : String
  assetExists : String → Bool
  returncode : ℤ
  stderrLines : List String
  videoPath : String

/-- Model of `W, H = map(int, probe_out.split('x'))` (source line 144): exactly two
`x`-separated parts, each parsed by `int`; any other shape raises (caught by
the task's `except`). -/
def parseDims (s : String) : Option (ℤ × ℤ) :=
  match splitOnSep 'x' s.data with
  | [ws, hs] =>
    match pyParseIntChars ws, pyParseIntChars hs with
    | some w, some h => some (w, h)
    | _, _ => none
  | _ => none

/-- The progress writes produced by the stderr loop (source lines 219-225):
one `processing` snapshot per line whose marker yields a percentage. -/
def progressWrites (d : ℚ) (lines : List String) : List Write :=
  lines.filterMap fun l => (extractProgress d l).map fun p =>
    { status := "processing", progress := p, error := none }

/-- Result of one run of `process_video_task`: the ordered snapshot writes,
whether the transcoding engine was launched, and the compiled filter state
when compilation was reached. -/
structure RunResult where
  writes : List Write
  launched : Bool
  compiled : Option CompileState

/-- Model of `process_video_task` (source lines 126-237) as a trace function.
Control flow: duration `0` raises before anything else; empty dimension
output raises; unparsable dimension output raises (Python `ValueError`,
message abbreviated); otherwise the `processing 0` snapshot is written
(line 151), the filter graph is compiled, the engine runs producing the
progress writes, and exit code `0` finalizes `completed 100` while any other
exit raises and the `except` block writes `failed 0` with the message. -/
def process_video_task (env : Env) (overlays : List OverlayMetadata) : RunResult :=
  if env.duration = 0 then
    { writes := [{ status := "failed", progress := 0,
                   error := some "Could not determine video duration. Is the file corrupted?" }],
      launched := false, compiled := none }
  else if env.probeOut = "" then
    { writes := [{ status := "failed", progress := 0,
                   error := some "Could not determine video dimensions." }],
      launched := false, compiled := none }
  else
    match parseDims env.probeOut with
    | none =>
      { writes := [{ status := "failed", progress := 0,
                     error := some "invalid literal for int() with base 10" }],
        launched := false, compiled := none }
    | some (W, H) =>
      if env.returncode = 0 then
        { writes := { status := "processing", progress := 0, error := none } ::
            progressWrites env.duration env.stderrLines ++
            [{ status := "completed", progress := 100, error := none }],
          launched := true,
          compiled := some (compileFilter env.assetExists env.videoPath W H overlays) }
      else
        { writes := { status := "processing", progress := 0, error := none } ::
            progressWrites env.duration env.stderrLines ++
            [{ status := "failed", progress := 0, error := some "FFmpeg process failed" }],
          launched := true,
          compiled := some (compileFilter env.assetExists env.videoPath W H overlays) }

/-- The parsed snapshot record (the dict written by `save_job_status`,
source lines 83-92). -/
structure JobData where
  job_id : String
  status : String
  progress : ℤ
  error : Option String
  updated_at : String
deriving DecidableEq, Repr

/-- Python `str.strip()` (whitespace at both ends). -/
def pyStrip (s : String) : String :=
  String.mk (((s.data.dropWhile Char.isWhitespace).reverse.dropWhile Char.isWhitespace).reverse)

/-- Model of `load_job_status` (source lines 95-106).  `file` is the snapshot file's
content, `none` when the file does not exist; `jsonParse` stands for
`json.loads`, with `none` modelling `JSONDecodeError` (which the source
catches and converts to `None`).  An empty or whitespace-only file returns
`None` before parsing. -/
def load_job_status (jsonParse : String → Option JobData) (file : Option String) :
    Option JobData :=
  match file with
  | none => none
  | some content =>
    let c := pyStrip content
    if c = "" then none
    else jsonParse c

/-- Outcome of the status-polling endpoint. -/
inductive PollResult where
  | ok (data : JobData)
  | notFound
deriving DecidableEq, Repr

/-- Model of `get_status` (source lines 283-287): a falsy load result becomes the 404
"Job not found" outcome; nothing else can escape to the poller. -/
def get_status (jsonParse : String → Option JobData) (file : Option String) : PollResult :=
  match load_job_status jsonParse file with
  | none => PollResult.notFound
  | some d => PollResult.ok d

/-- Model of `list_jobs` (source lines 300-306): `json.load` on every snapshot file
with no exception handling, so a file that fails to parse raises
`JSONDecodeError`, modelled by the `Except.error` outcome escaping to the
caller.  `files` are the contents of the files matched by the glob. -/
def list_jobs (jsonParse : String → Option JobData) :
    List String → Except String (List JobData)
  | [] => Except.ok []
  | content :: rest =>
    match jsonParse content with
    | some d => (list_jobs jsonParse rest).map (fun l => d :: l)
    | none => Except.error "JSONDecodeError"

/-- A diagnostic line that begins with an elapsed-time marker: `time=` then
`HH:MM:SS.ff`, followed by arbitrary text. -/
def timeLineChars (h m s f : ℕ) (tail : List Char) : List Char :=
  't' :: 'i' :: 'm' :: 'e' :: '=' :: fmt2 h ++ ':' :: fmt2 m ++ ':' :: fmt2 s ++
    '.' :: fmt2 f ++ tail

/-- The text overlay of the spec's worked example: content `"Hi"`, window
`[1, 3]`, centred position, `width`/`height` not given (hence the pydantic
defaults `0.2`). -/
def ovHi : OverlayMetadata :=
  { type := "text", content := "Hi", start_time := 1, end_time := 3,
    x := 1 / 2, y := 1 / 2 }

/-- The font sizes of the draw-text stages of a compiled state. -/
def drawtextFontsizes (st : CompileState) : List ℤ :=
  st.stages.filterMap fun s =>
    match s with
    | Stage.drawtext _ _ fs _ _ _ _ _ => some fs
    | _ => none

/-- An image overlay whose fractional size is exactly zero in both
dimensions (an explicitly submitted `width: 0, height: 0`). -/
def ovZero : OverlayMetadata :=
  { type := "image", content := "logo.png", start_time := 0, end_time := 1,
    x := 0, y := 0, width := some 0, height := some 0 }

/-- An ordinary image overlay with nonzero fractional size. -/
def ovImg : OverlayMetadata :=
  { type := "image", content := "badge.png", start_time := 2, end_time := 5,
    x := 1 / 10, y := 1 / 10, width := some (1 / 2), height := some (1 / 4) }

/-! ### Helper lemmas -/

theorem pyInt_of_nonneg {q : ℚ} (h : 0 ≤ q) : pyInt q = ⌊q⌋ := by
  simp [pyInt, h]

theorem digitVal_digitChar {d : ℕ} (h : d < 10) : digitVal (Nat.digitChar d) = some d := by
  interval_cases d <;> decide

theorem isDigit_digitChar {d : ℕ} (h : d < 10) : (Nat.digitChar d).isDigit = true := by
  interval_cases d <;> decide

theorem digit_ne_special {c : Char} (h : c.isDigit = true) :
    c ≠ ':' ∧ c ≠ '.' ∧ c ≠ '-' ∧ c ≠ '+' := by
  refine ⟨?_, ?_, ?_, ?_⟩ <;> rintro rfl <;> exact absurd h (by decide)

theorem fmt2_digits {n : ℕ} (h : n < 100) : ∀ c ∈ fmt2 n, c.isDigit = true := by
  intro c hc
  have h1 : n / 10 < 10 := by omega
  have h2 : n % 10 < 10 := by omega
  simp only [fmt2, List.mem_cons, List.not_mem_nil, or_false] at hc
  rcases hc with rfl | rfl
  · exact isDigit_digitChar h1
  · exact isDigit_digitChar h2

theorem parseUnsigned_fmt2 {n : ℕ} (h : n < 100) : parseUnsigned (fmt2 n) = some n := by
  have h1 : n / 10 < 10 := by omega
  have h2 : n % 10 < 10 := by omega
  simp only [fmt2, parseUnsigned, List.foldlM, digitVal_digitChar h1, digitVal_digitChar h2,
    Option.map_some', Option.bind_some, Option.bind_eq_bind, Option.some_bind]
  norm_num [Nat.div_add_mod]
  omega

theorem splitOnSep_no (sep : Char) :
    ∀ xs : List Char, (∀ c ∈ xs, c ≠ sep) → splitOnSep sep xs = [xs]
  | [], _ => rfl
  | x :: xs, h => by
    have hx : x ≠ sep := h x (by simp)
    have ih := splitOnSep_no sep xs (fun c hc => h c (by simp [hc]))
    simp [splitOnSep, hx, ih]

theorem splitOnSep_append (sep : Char) :
    ∀ (xs ys : List Char), (∀ c ∈ xs, c ≠ sep) →
      splitOnSep sep (xs ++ sep :: ys) = xs :: splitOnSep sep ys
  | [], ys, _ => by simp [splitOnSep]
  | x :: xs, ys, h => by
    have hx : x ≠ sep := h x (by simp)
    have ih := splitOnSep_append sep xs ys (fun c hc => h c (by simp [hc]))
    show splitOnSep sep (x :: (xs ++ sep :: ys)) = (x :: xs) :: splitOnSep sep ys
    rw [splitOnSep, if_neg hx, ih]

theorem pyParseIntChars_fmt2 {n : ℕ} (h : n < 100) :
    pyParseIntChars (fmt2 n) = some (n : ℤ) := by
  have h1 : n / 10 < 10 := by omega
  obtain ⟨_, _, hm, hp⟩ := digit_ne_special (isDigit_digitChar h1)
  show pyParseIntChars (Nat.digitChar (n / 10) :: [Nat.digitChar (n % 10)]) = some (n : ℤ)
  rw [pyParseIntChars, if_neg hm, if_neg hp]
  rw [show Nat.digitChar (n / 10) :: [Nat.digitChar (n % 10)] = fmt2 n from rfl,
    parseUnsigned_fmt2 h]
  rfl

theorem parseMantissa_fmt2 {s f : ℕ} (hs : s < 100) (hf : f < 100) :
    parseMantissa (fmt2 s ++ '.' :: fmt2 f) = some ((s : ℚ) + (f : ℚ) / 100) := by
  have hnds : ∀ c ∈ fmt2 s, c ≠ '.' := fun c hc => (digit_ne_special (fmt2_digits hs c hc)).2.1
  have hndf : ∀ c ∈ fmt2 f, c ≠ '.' := fun c hc => (digit_ne_special (fmt2_digits hf c hc)).2.1
  rw [parseMantissa, splitOnSep_append '.' (fmt2 s) (fmt2 f) hnds, splitOnSep_no '.' (fmt2 f) hndf]
  simp only [fmt2, List.isEmpty_cons]
  rw [show [Nat.digitChar (s / 10), Nat.digitChar (s % 10)] = fmt2 s from rfl,
    show [Nat.digitChar (f / 10), Nat.digitChar (f % 10)] = fmt2 f from rfl,
    parseUnsigned_fmt2 hs, parseUnsigned_fmt2 hf]
  norm_num [fmt2]

theorem pyParseFloatChars_fmt2 {s f : ℕ} (hs : s < 100) (hf : f < 100) :
    pyParseFloatChars (fmt2 s ++ '.' :: fmt2 f) = some ((s : ℚ) + (f : ℚ) / 100) := by
  have h1 : s / 10 < 10 := by omega
  obtain ⟨_, _, hm, hp⟩ := digit_ne_special (isDigit_digitChar h1)
  show pyParseFloatChars (Nat.digitChar (s / 10) :: (Nat.digitChar (s % 10) :: '.' :: fmt2 f)) =
    some ((s : ℚ) + (f : ℚ) / 100)
  rw [pyParseFloatChars, if_neg hm, if_neg hp]
  exact parseMantissa_fmt2 hs hf

theorem timeParse_marker {h m s f : ℕ} (hh : h < 100) (hm : m < 100) (hs : s < 100)
    (hf : f < 100) :
    timeParse (String.mk (fmt2 h ++ ':' :: fmt2 m ++ ':' :: fmt2 s ++ '.' :: fmt2 f)) =
      some ((h : ℚ) * 3600 + (m : ℚ) * 60 + ((s : ℚ) + (f : ℚ) / 100)) := by
  have hch : ∀ c ∈ fmt2 h, c ≠ ':' := fun c hc => (digit_ne_special (fmt2_digits hh c hc)).1
  have hcm : ∀ c ∈ fmt2 m, c ≠ ':' := fun c hc => (digit_ne_special (fmt2_digits hm c hc)).1
  have hcs : ∀ c ∈ fmt2 s ++ '.' :: fmt2 f, c ≠ ':' := by
    intro c hc
    rcases List.mem_append.mp hc with hc | hc
    · exact (digit_ne_special (fmt2_digits hs c hc)).1
    · rcases List.mem_cons.mp hc with rfl | hc
      · decide
      · exact (digit_ne_special (fmt2_digits hf c hc)).1
  rw [timeParse]
  rw [show (String.mk (fmt2 h ++ ':' :: fmt2 m ++ ':' :: fmt2 s ++ '.' :: fmt2 f)).data =
    fmt2 h ++ ':' :: (fmt2 m ++ ':' :: (fmt2 s ++ '.' :: fmt2 f)) from rfl]
  rw [splitOnSep_append ':' (fmt2 h) _ hch, splitOnSep_append ':' (fmt2 m) _ hcm,
    splitOnSep_no ':' _ hcs]
  rw [show (fmt2 h :: fmt2 m :: [fmt2 s ++ '.' :: fmt2 f] : List (List Char)) =
    [fmt2 h, fmt2 m, fmt2 s ++ '.' :: fmt2 f] from rfl]
  simp only [pyParseIntChars_fmt2 hh, pyParseIntChars_fmt2 hm, pyParseFloatChars_fmt2 hs hf]
  norm_cast

theorem matchTimeAt_timeLine {h m s f : ℕ} (hh : h < 100) (hm : m < 100) (hs : s < 100)
    (hf : f < 100) (tail : List Char) :
    matchTimeAt (timeLineChars h m s f tail) =
      some (fmt2 h ++ ':' :: fmt2 m ++ ':' :: fmt2 s ++ '.' :: fmt2 f) := by
  have d1 : h / 10 < 10 := by omega
  have d2 : h % 10 < 10 := by omega
  have d3 : m / 10 < 10 := by omega
  have d4 : m % 10 < 10 := by omega
  have d5 : s / 10 < 10 := by omega
  have d6 : s % 10 < 10 := by omega
  have d7 : f / 10 < 10 := by omega
  have d8 : f % 10 < 10 := by omega
  simp only [timeLineChars, fmt2, List.cons_append, List.nil_append]
  simp [matchTimeAt, isDigit_digitChar d1, isDigit_digitChar d2, isDigit_digitChar d3,
    isDigit_digitChar d4, isDigit_digitChar d5, isDigit_digitChar d6, isDigit_digitChar d7,
    isDigit_digitChar d8]

theorem findTimeMarker_timeLine {h m s f : ℕ} (hh : h < 100) (hm : m < 100) (hs : s < 100)
    (hf : f < 100) (tail : List Char) :
    findTimeMarker (timeLineChars h m s f tail) =
      some (fmt2 h ++ ':' :: fmt2 m ++ ':' :: fmt2 s ++ '.' :: fmt2 f) := by
  have hA := matchTimeAt_timeLine hh hm hs hf tail
  rw [show timeLineChars h m s f tail =
    't' :: ('i' :: 'm' :: 'e' :: '=' :: fmt2 h ++ ':' :: fmt2 m ++ ':' :: fmt2 s ++
      '.' :: fmt2 f ++ tail) from rfl]
  rw [findTimeMarker]
  rw [show ('t' :: ('i' :: 'm' :: 'e' :: '=' :: fmt2 h ++ ':' :: fmt2 m ++ ':' :: fmt2 s ++
      '.' :: fmt2 f ++ tail)) = timeLineChars h m s f tail from rfl, hA]

theorem extractProgress_le {d : ℚ} {l : String} {p : ℤ} (h : extractProgress d l = some p) :
    p ≤ 99 := by
  rw [extractProgress] at h
  cases hf : findTimeMarker l.data with
  | none => rw [hf] at h; cases h
  | some t =>
    simp only [hf] at h
    by_cases hd : 0 < d
    · rw [if_pos hd] at h
      cases h
      exact min_le_right _ _
    · rw [if_neg hd] at h; cases h

theorem pyInt_intCast (n : ℤ) : pyInt ((n : ℚ)) = n := by
  by_cases h : (0 : ℚ) ≤ (n : ℚ)
  · rw [pyInt_of_nonneg h, Int.floor_intCast]
  · rw [pyInt, if_neg h, show -((n : ℚ)) = ((-n : ℤ) : ℚ) by push_cast; ring,
      Int.floor_intCast]
    omega

theorem extract_line50 :
    extractProgress 100
      "frame=  25 fps= 12 q=28.0 size=     256kB time=00:00:50.00 bitrate=  41.9kbits/s speed=1x" =
      some 50 := by
  have hm : findTimeMarker
      ("frame=  25 fps= 12 q=28.0 size=     256kB time=00:00:50.00 bitrate=  41.9kbits/s speed=1x").data =
      some (fmt2 0 ++ ':' :: fmt2 0 ++ ':' :: fmt2 50 ++ '.' :: fmt2 0) := by decide
  have hts : time_str_to_sec
      (String.mk (fmt2 0 ++ ':' :: fmt2 0 ++ ':' :: fmt2 50 ++ '.' :: fmt2 0)) = 50 := by
    rw [time_str_to_sec,
      timeParse_marker (by norm_num) (by norm_num) (by norm_num) (by norm_num)]
    norm_num
  simp only [extractProgress, hm, if_pos (show (0 : ℚ) < 100 by norm_num), hts]
  rw [show (50 : ℚ) / 100 * 100 = ((50 : ℤ) : ℚ) by norm_num, pyInt_intCast]
  rw [min_def]
  norm_num

theorem extract_line100 :
    extractProgress 100
      "frame=  50 fps= 12 q=28.0 size=     512kB time=00:01:40.00 bitrate=  41.9kbits/s speed=1x" =
      some 99 := by
  have hm : findTimeMarker
      ("frame=  50 fps= 12 q=28.0 size=     512kB time=00:01:40.00 bitrate=  41.9kbits/s speed=1x").data =
      some (fmt2 0 ++ ':' :: fmt2 1 ++ ':' :: fmt2 40 ++ '.' :: fmt2 0) := by decide
  have hts : time_str_to_sec
      (String.mk (fmt2 0 ++ ':' :: fmt2 1 ++ ':' :: fmt2 40 ++ '.' :: fmt2 0)) = 100 := by
    rw [time_str_to_sec,
      timeParse_marker (by norm_num) (by norm_num) (by norm_num) (by norm_num)]
    norm_num
  simp only [extractProgress, hm, if_pos (show (0 : ℚ) < 100 by norm_num), hts]
  rw [show (100 : ℚ) / 100 * 100 = ((100 : ℤ) : ℚ) by norm_num, pyInt_intCast]
  rw [min_def]
  norm_num

theorem getLast?_concat_own {α : Type} : ∀ (l : List α) (a : α), (l ++ [a]).getLast? = some a
  | [], _ => rfl
  | x :: xs, a => by
    rw [List.cons_append]
    cases hxs : xs ++ [a] with
    | nil => exact absurd hxs (by simp)
    | cons y ys =>
      rw [List.getLast?_cons_cons, ← hxs, getLast?_concat_own xs a]

theorem getLast?_cons_concat {α : Type} (x : α) (l : List α) (a : α) :
    (x :: (l ++ [a])).getLast? = some a := by
  rw [show x :: (l ++ [a]) = (x :: l) ++ [a] from rfl]
  exact getLast?_concat_own _ _

theorem mem_progressWrites {d : ℚ} {lines : List String} {w : Write}
    (h : w ∈ progressWrites d lines) : w.status = "processing" ∧ w.progress ≤ 99 := by
  rw [progressWrites, List.mem_filterMap] at h
  obtain ⟨l, _, hl⟩ := h
  rw [Option.map_eq_some'] at hl
  obtain ⟨p, hp, rfl⟩ := hl
  exact ⟨rfl, extractProgress_le hp⟩

/-- Every run of the task writes a (possibly empty) block of `processing`
snapshots with progress at most `99`, then exactly one terminal snapshot:
`completed 100` or `failed 0` with an error message. -/
theorem run_writes_shape (env : Env) (ovs : List OverlayMetadata) :
    ∃ pw t, (process_video_task env ovs).writes = pw ++ [t] ∧
      (∀ w ∈ pw, w.status = "processing" ∧ w.progress ≤ 99) ∧
      ((t.status = "completed" ∧ t.progress = 100 ∧ t.error = none) ∨
        (t.status = "failed" ∧ t.progress = 0 ∧ t.error ≠ none)) := by
  rw [process_video_task]
  split
  · exact ⟨[], _, rfl, by simp, Or.inr ⟨rfl, rfl, by simp⟩⟩
  · split
    · exact ⟨[], _, rfl, by simp, Or.inr ⟨rfl, rfl, by simp⟩⟩
    · split
      · exact ⟨[], _, rfl, by simp, Or.inr ⟨rfl, rfl, by simp⟩⟩
      · split
        · refine ⟨{ status := "processing", progress := 0, error := none } ::
              progressWrites env.duration env.stderrLines, _, rfl, ?_,
            Or.inl ⟨rfl, rfl, rfl⟩⟩
          intro w hw
          rcases List.mem_cons.mp hw with rfl | hw
          · exact ⟨rfl, by norm_num⟩
          · exact mem_progressWrites hw
        · refine ⟨{ status := "processing", progress := 0, error := none } ::
              progressWrites env.duration env.stderrLines, _, rfl, ?_,
            Or.inr ⟨rfl, rfl, by simp⟩⟩
          intro w hw
          rcases List.mem_cons.mp hw with rfl | hw
          · exact ⟨rfl, by norm_num⟩
          · exact mem_progressWrites hw

/-- The elapsed-time line `time=00:00:50.00` reports `50` of a 100-second
duration. -/
theorem extract_time50 : extractProgress 100 "time=00:00:50.00" = some 50 := by
  have hm : findTimeMarker ("time=00:00:50.00").data =
      some (fmt2 0 ++ ':' :: fmt2 0 ++ ':' :: fmt2 50 ++ '.' :: fmt2 0) := by decide
  have hts : time_str_to_sec
      (String.mk (fmt2 0 ++ ':' :: fmt2 0 ++ ':' :: fmt2 50 ++ '.' :: fmt2 0)) = 50 := by
    rw [time_str_to_sec,
      timeParse_marker (by norm_num) (by norm_num) (by norm_num) (by norm_num)]
    norm_num
  simp only [extractProgress, hm, if_pos (show (0 : ℚ) < 100 by norm_num), hts]
  rw [show (50 : ℚ) / 100 * 100 = ((50 : ℤ) : ℚ) by norm_num, pyInt_intCast]
  rw [min_def]
  norm_num

/-- A run over a 100-second video that reports 50 percent and then exits
nonzero: the trace shows the progress value dropping back to `0` in the
terminal `failed` snapshot. -/
theorem run_trace_drop :
    (process_video_task
        ⟨100, "1920x1080", fun _ => true, 1, ["time=00:00:50.00"], "v.mp4"⟩ []).writes =
      [{ status := "processing", progress := 0, error := none },
       { status := "processing", progress := 50, error := none },
       { status := "failed", progress := 0, error := some "FFmpeg process failed" }] := by
  have h1 : ¬((100 : ℚ) = 0) := by norm_num
  have h3 : parseDims "1920x1080" = some (1920, 1080) := by decide
  have hpw : progressWrites 100 ["time=00:00:50.00"] =
      [{ status := "processing", progress := 50, error := none }] := by
    simp [progressWrites, extract_time50]
  simp [process_video_task, h1, h3, hpw]

/-! ### Claim theorems -/

/-- C2: for every diagnostic line carrying an elapsed-time marker
`HH:MM:SS.ff` and a known total duration `d > 0`, the reported progress is
`floor(((h*3600 + m*60 + s) / d) * 100)` clamped to at most `99` (so for
`d = 100` the line with `00:00:50.00` reports `50` and the line with
`00:01:40.00` reports `99`, never `100`); and every time string the
conversion fails to parse yields `0.0` rather than an error. -/
theorem progress_extraction_correct :
    (∀ (h m s f : ℕ) (d : ℚ) (tail : List Char), h < 100 → m < 100 → s < 100 → f < 100 →
      0 < d →
      extractProgress d (String.mk (timeLineChars h m s f tail)) =
        some (min ⌊(((h : ℚ) * 3600 + (m : ℚ) * 60 + ((s : ℚ) + (f : ℚ) / 100)) / d) * 100⌋ 99)) ∧
    (extractProgress 100
        "frame=  25 fps= 12 q=28.0 size=     256kB time=00:00:50.00 bitrate=  41.9kbits/s speed=1x" =
        some 50 ∧
      extractProgress 100
        "frame=  50 fps= 12 q=28.0 size=     512kB time=00:01:40.00 bitrate=  41.9kbits/s speed=1x" =
        some 99) ∧
    (∀ t : String, timeParse t = none → time_str_to_sec t = 0) := by
  refine ⟨?_, ⟨extract_line50, extract_line100⟩, ?_⟩
  · intro h m s f d tail hh hm hs hf hd
    have hmark := findTimeMarker_timeLine hh hm hs hf tail
    have hts : time_str_to_sec
        (String.mk (fmt2 h ++ ':' :: fmt2 m ++ ':' :: fmt2 s ++ '.' :: fmt2 f)) =
        (h : ℚ) * 3600 + (m : ℚ) * 60 + ((s : ℚ) + (f : ℚ) / 100) := by
      rw [time_str_to_sec, timeParse_marker hh hm hs hf]; rfl
    simp only [extractProgress,
      show (String.mk (timeLineChars h m s f tail)).data = timeLineChars h m s f tail from rfl,
      hmark, if_pos hd, hts]
    rw [pyInt_of_nonneg (by positivity)]
  · intro t h
    rw [time_str_to_sec, h]; rfl

/-- C3: whenever the base-video probe fails (duration `0`, or empty or
non-numeric dimension output), the job is recorded `failed` with a
descriptive error message and the transcoding engine is never launched. -/
theorem probe_failure_fails_without_launch (env : Env) (ovs : List OverlayMetadata)
    (h : env.duration = 0 ∨ env.probeOut = "" ∨ parseDims env.probeOut = none) :
    (process_video_task env ovs).launched = false ∧
      ∃ e, (process_video_task env ovs).writes =
        [{ status := "failed", progress := 0, error := some e }] := by
  rw [process_video_task]
  by_cases h1 : env.duration = 0
  · rw [if_pos h1]
    exact ⟨rfl, _, rfl⟩
  · rw [if_neg h1]
    by_cases h2 : env.probeOut = ""
    · rw [if_pos h2]
      exact ⟨rfl, _, rfl⟩
    · rw [if_neg h2]
      rcases h with h | h | h
      · exact absurd h h1
      · exact absurd h h2
      · rw [h]
        exact ⟨rfl, _, rfl⟩

/-- Witness for C3: a job whose duration probe returned `0`. -/
theorem probe_failure_witness :
    (process_video_task ⟨0, "1920x1080", fun _ => true, 0, [], "a.mp4"⟩ []).launched = false ∧
      ∃ e, (process_video_task ⟨0, "1920x1080", fun _ => true, 0, [], "a.mp4"⟩ []).writes =
        [{ status := "failed", progress := 0, error := some e }] :=
  probe_failure_fails_without_launch _ [] (Or.inl rfl)

/-- C6: within one job run, every progress snapshot (status `processing`,
progress at most `99`) precedes the single terminal snapshot (`completed`
with progress `100`, or `failed`), which is written exactly once and is
followed by no further write. -/
theorem writes_ordered_single_terminal (env : Env) (ovs : List OverlayMetadata) :
    ∃ pw t, (process_video_task env ovs).writes = pw ++ [t] ∧
      (∀ w ∈ pw, w.status = "processing" ∧ w.progress ≤ 99) ∧
      ((t.status = "completed" ∧ t.progress = 100) ∨ t.status = "failed") ∧
      (∀ w ∈ pw, w.status ≠ "completed" ∧ w.status ≠ "failed") := by
  obtain ⟨pw, t, heq, hpre, hterm⟩ := run_writes_shape env ovs
  refine ⟨pw, t, heq, hpre, ?_, ?_⟩
  · rcases hterm with ⟨a, b, _⟩ | ⟨a, _, _⟩
    · exact Or.inl ⟨a, b⟩
    · exact Or.inr a
  · intro w hw
    rw [(hpre w hw).1]
    exact ⟨by decide, by decide⟩

/-- C10: every terminal `failed` snapshot carries progress `0`, whatever was
reported before; the concrete trace shows a run that reported `50` and then
wrote `failed` with progress `0`. -/
theorem failed_terminal_progress_zero :
    (∀ (env : Env) (ovs : List OverlayMetadata) (w : Write),
      (process_video_task env ovs).writes.getLast? = some w → w.status = "failed" →
        w.progress = 0) ∧
    (process_video_task
        ⟨100, "1920x1080", fun _ => true, 1, ["time=00:00:50.00"], "v.mp4"⟩ []).writes =
      [{ status := "processing", progress := 0, error := none },
       { status := "processing", progress := 50, error := none },
       { status := "failed", progress := 0, error := some "FFmpeg process failed" }] := by
  constructor
  · intro env ovs w hlast hfail
    obtain ⟨pw, t, heq, _, hterm⟩ := run_writes_shape env ovs
    rw [heq, getLast?_concat_own] at hlast
    cases hlast
    rcases hterm with ⟨hc, _, _⟩ | ⟨_, hp, _⟩
    · rw [hfail] at hc
      exact absurd hc (by decide)
    · exact hp
  · exact run_trace_drop

/-- Witness for C10: the terminal snapshot of the concrete failing run has
progress `0`. -/
theorem failed_terminal_witness :
    ({ status := "failed", progress := 0, error := some "FFmpeg process failed" } : Write).progress
      = 0 :=
  failed_terminal_progress_zero.1
    ⟨100, "1920x1080", fun _ => true, 1, ["time=00:00:50.00"], "v.mp4"⟩ []
    { status := "failed", progress := 0, error := some "FFmpeg process failed" }
    (by rw [run_trace_drop]; rfl) rfl

/-- C8: an image/clip overlay whose stored asset is missing contributes no
additional input and no scale/overlay stage (the compiler state is
unchanged), and a job with successful probes and a zero engine exit reaches
`completed` regardless of such skipped overlays. -/
theorem missing_asset_skipped_job_completes :
    (∀ (ae : String → Bool) (W H : ℤ) (i : ℕ) (ov : OverlayMetadata) (st : CompileState),
      (ov.type = "image" ∨ ov.type = "video") → ae ov.content = false →
        stepOverlay ae W H i ov st = st) ∧
    (∀ (env : Env) (ovs : List OverlayMetadata),
      env.duration ≠ 0 → env.probeOut ≠ "" → (∃ wh, parseDims env.probeOut = some wh) →
      env.returncode = 0 →
        (process_video_task env ovs).writes.getLast? =
          some { status := "completed", progress := 100, error := none } ∧
        (process_video_task env ovs).launched = true) := by
  constructor
  · intro ae W H i ov st htype hmiss
    have ht : ¬(ov.type = "text") := by
      rcases htype with h | h <;> rw [h] <;> decide
    simp [stepOverlay, ht, htype, hmiss]
  · rintro env ovs h1 h2 ⟨⟨W, H⟩, h3⟩ h4
    rw [process_video_task, if_neg h1, if_neg h2]
    simp only [h3, if_pos h4]
    exact ⟨getLast?_cons_concat _ _ _, trivial⟩

/-- Witness for C8: a missing-asset image overlay leaves the state
untouched, and a run over it still completes. -/
theorem missing_asset_witness :
    stepOverlay (fun _ => false) 1920 1080 0 ovImg (initState "x.mp4") = initState "x.mp4" ∧
    ((process_video_task ⟨120, "640x480", fun _ => false, 0, [], "b.mp4"⟩ [ovImg]).writes.getLast?
        = some { status := "completed", progress := 100, error := none } ∧
      (process_video_task ⟨120, "640x480", fun _ => false, 0, [], "b.mp4"⟩ [ovImg]).launched
        = true) :=
  ⟨missing_asset_skipped_job_completes.1 (fun _ => false) 1920 1080 0 ovImg (initState "x.mp4")
      (Or.inl rfl) rfl,
    missing_asset_skipped_job_completes.2 ⟨120, "640x480", fun _ => false, 0, [], "b.mp4"⟩ [ovImg]
      (show (120 : ℚ) ≠ 0 by norm_num) (by decide) ⟨(640, 480), by decide⟩ rfl⟩

/-- C4: a snapshot file that is missing, momentarily empty, or not valid
JSON all produce the same "not found" outcome from `load_job_status` and a
404-style `notFound` from the polling endpoint — never a parsing error. -/
theorem load_tolerates_truncated_snapshot (jsonParse : String → Option JobData)
    (content : String)
    (h : pyStrip content = "" ∨ jsonParse (pyStrip content) = none) :
    load_job_status jsonParse (some content) = none ∧
    load_job_status jsonParse (some content) = load_job_status jsonParse none ∧
    get_status jsonParse (some content) = PollResult.notFound ∧
    get_status jsonParse none = PollResult.notFound := by
  have hl : load_job_status jsonParse (some content) = none := by
    show (if pyStrip content = "" then none else jsonParse (pyStrip content)) = none
    rcases h with h | h
    · rw [if_pos h]
    · by_cases he : pyStrip content = ""
      · rw [if_pos he]
      · rw [if_neg he, h]
  refine ⟨hl, hl.trans rfl, ?_, rfl⟩
  rw [get_status, hl]

/-- Witness for C4: a truncated JSON snapshot (writer-in-progress race). -/
theorem load_truncated_witness :
    load_job_status (fun _ => none) (some "\x7b\"job_id\": \"ab") = none ∧
    load_job_status (fun _ => none) (some "\x7b\"job_id\": \"ab") =
      load_job_status (fun _ => none) none ∧
    get_status (fun _ => none) (some "\x7b\"job_id\": \"ab") = PollResult.notFound ∧
    get_status (fun _ => none) none = PollResult.notFound :=
  load_tolerates_truncated_snapshot _ _ (Or.inr rfl)

/-- C5 (code bug): unlike `load_job_status`, the listing endpoint performs
`json.load` with no exception handling, so one unreadable (e.g. empty)
snapshot makes the whole listing raise instead of being treated as "not yet
available". -/
theorem list_jobs_raises_on_truncated (jsonParse : String → Option JobData)
    (h : jsonParse "" = none) :
    list_jobs jsonParse [""] = Except.error "JSONDecodeError" := by
  simp [list_jobs, h]

/-- Witness for C5: a jobs directory holding one empty snapshot file. -/
theorem list_jobs_raises_witness :
    list_jobs (fun _ => none) [""] = Except.error "JSONDecodeError" :=
  list_jobs_raises_on_truncated (fun _ => none) rfl

/-- C1 (counterexample): the example overlay omits `height`, so the pydantic
field default `0.2` applies and the compiled draw-text stage has font size
`int(0.2 * 1080) = 216` — not `54` as the claim's `0.05` default predicts
(the `0.05` fallback fires only for an explicit `null`/`0` height). -/
theorem text_example_fontsize_ce :
    drawtextFontsizes (compileFilter (fun _ => true) "input.mp4" 1920 1080 [ovHi]) = [216] ∧
    ¬(drawtextFontsizes (compileFilter (fun _ => true) "input.mp4" 1920 1080 [ovHi]) = [54]) := by
  have e3 : (16 : ℤ) ⊔ pyInt (pyOr (some (5⁻¹ : ℚ)) 20⁻¹ * 1080) = 216 := by
    rw [show pyOr (some (5⁻¹ : ℚ)) 20⁻¹ = (5⁻¹ : ℚ) by norm_num [pyOr]]
    rw [show ((5⁻¹ : ℚ) * 1080) = ((216 : ℤ) : ℚ) by norm_num, pyInt_intCast]
    decide
  have hstep : compileFilter (fun _ => true) "input.mp4" 1920 1080 [ovHi] =
      { inputArgs := ["-i", "input.mp4"],
        stages := [Stage.drawtext "[0:v]" (escapeText "Hi") 216
          (pyInt ((1 / 2 : ℚ) * ((1920 : ℤ) : ℚ))) (pyInt ((1 / 2 : ℚ) * ((1080 : ℤ) : ℚ)))
          1 3 "[v1]"],
        lastLabel := "[v1]" } := by
    show stepOverlay (fun _ => true) 1920 1080 0 ovHi (initState "input.mp4") = _
    simp [stepOverlay, initState, ovHi]
    exact ⟨e3, by decide⟩
  rw [hstep]
  constructor
  · rfl
  · decide

/-- C1 (amended): the example overlay on a 1920×1080 frame compiles to a
draw-text stage at pixel position (960, 540), gated `1 ≤ t ≤ 3`, with font
size `216 = max(16, int(0.2 * 1080))` — the `0.2` being the model's field
default for an omitted height (`0.05` applies only to `null`/`0`). -/
theorem text_example_compile_amended :
    compileFilter (fun _ => true) "input.mp4" 1920 1080 [ovHi] =
      { inputArgs := ["-i", "input.mp4"],
        stages := [Stage.drawtext "[0:v]" (escapeText "Hi") 216 960 540 1 3 "[v1]"],
        lastLabel := "[v1]" } ∧
    escapeText "Hi" = "Hi" ∧
    max 16 (pyInt (pyOr ovHi.height (1 / 20) * ((1080 : ℤ) : ℚ))) = 216 ∧
    (∀ t : ℚ, betweenGate 1 3 t ↔ 1 ≤ t ∧ t ≤ 3) := by
  have e1 : pyInt ((2⁻¹ : ℚ) * 1920) = 960 := by
    rw [show ((2⁻¹ : ℚ) * 1920) = ((960 : ℤ) : ℚ) by norm_num, pyInt_intCast]
  have e2 : pyInt ((2⁻¹ : ℚ) * 1080) = 540 := by
    rw [show ((2⁻¹ : ℚ) * 1080) = ((540 : ℤ) : ℚ) by norm_num, pyInt_intCast]
  have e3 : (16 : ℤ) ⊔ pyInt (pyOr (some (5⁻¹ : ℚ)) 20⁻¹ * 1080) = 216 := by
    rw [show pyOr (some (5⁻¹ : ℚ)) 20⁻¹ = (5⁻¹ : ℚ) by norm_num [pyOr]]
    rw [show ((5⁻¹ : ℚ) * 1080) = ((216 : ℤ) : ℚ) by norm_num, pyInt_intCast]
    decide
  have e3' : max 16 (pyInt (pyOr ovHi.height (1 / 20) * ((1080 : ℤ) : ℚ))) = 216 := by
    rw [show pyOr ovHi.height (1 / 20) = (1 / 5 : ℚ) by norm_num [pyOr, ovHi]]
    rw [show (1 / 5 : ℚ) * ((1080 : ℤ) : ℚ) = ((216 : ℤ) : ℚ) by norm_num, pyInt_intCast]
    decide
  refine ⟨?_, by decide, e3', fun t => Iff.rfl⟩
  show stepOverlay (fun _ => true) 1920 1080 0 ovHi (initState "input.mp4") = _
  simp [stepOverlay, initState, ovHi]
  exact ⟨⟨e3, e1, e2, by decide⟩, by decide⟩

/-- C7 (counterexample): a fractional width of exactly `0` is falsy in
Python, so `ov.width or 0.2` substitutes the default `0.2` and the scale
stage receives `384 = evenDown(int(0.2 * 1920))`, which exceeds
`trunc(0 * 1920) = 0`. -/
theorem scale_zero_fraction_ce :
    targetW (some 0) 1920 = 384 ∧
    pyInt ((0 : ℚ) * ((1920 : ℤ) : ℚ)) = 0 ∧
    ¬(targetW (some 0) 1920 ≤ pyInt ((0 : ℚ) * ((1920 : ℤ) : ℚ))) ∧
    (stepOverlay (fun _ => true) 1920 1080 0 ovZero (initState "in.mp4")).stages =
      [Stage.scale 1 384 216 "[sc0]",
       Stage.overlay "[0:v]" "[sc0]" 0 0 0 1 "[v1]"] := by
  have h384 : targetW (some 0) 1920 = 384 := by
    rw [targetW, show pyOr (some 0) (1 / 5) = (1 / 5 : ℚ) by simp [pyOr]]
    rw [show (1 / 5 : ℚ) * ((1920 : ℤ) : ℚ) = ((384 : ℤ) : ℚ) by norm_num, pyInt_intCast]
    decide
  have h216 : targetW (some 0) 1080 = 216 := by
    rw [targetW, show pyOr (some 0) (1 / 5) = (1 / 5 : ℚ) by simp [pyOr]]
    rw [show (1 / 5 : ℚ) * ((1080 : ℤ) : ℚ) = ((216 : ℤ) : ℚ) by norm_num, pyInt_intCast]
    decide
  have h0w : pyInt ((0 : ℚ) * ((1920 : ℤ) : ℚ)) = 0 := by
    rw [show (0 : ℚ) * ((1920 : ℤ) : ℚ) = ((0 : ℤ) : ℚ) by norm_num, pyInt_intCast]
  have h0h : pyInt ((0 : ℚ) * ((1080 : ℤ) : ℚ)) = 0 := by
    rw [show (0 : ℚ) * ((1080 : ℤ) : ℚ) = ((0 : ℤ) : ℚ) by norm_num, pyInt_intCast]
  refine ⟨h384, h0w, by rw [h384, h0w]; decide, ?_⟩
  simp [stepOverlay, initState, ovZero, h384, h216]
  refine ⟨by decide, ?_, by decide⟩
  rw [show (0 : ℚ) = ((0 : ℤ) : ℚ) by norm_num, pyInt_intCast]

/-- C7 (amended): for image/clip overlays with fractional size in `(0, 1]`,
the scale-stage dimensions are even and never exceed the truncated product
of fraction and frame dimension; a zero fraction instead falls back to the
`0.2` default (see the counterexample), which is why `0` is excluded. -/
theorem scale_dims_even_rounddown_amended :
    (∀ (w : ℚ) (dim : ℤ), 0 < w → w ≤ 1 →
      Even (targetW (some w) dim) ∧ targetW (some w) dim ≤ pyInt (w * (dim : ℚ))) ∧
    (∀ (ae : String → Bool) (W H : ℤ) (i : ℕ) (ov : OverlayMetadata) (st : CompileState),
      ov.type = "image" ∨ ov.type = "video" → ae ov.content = true →
        (stepOverlay ae W H i ov st).stages = st.stages ++
          [Stage.scale (((st.inputArgs.length : ℤ) + 2) / 2 - 1)
            (targetW ov.width W) (targetW ov.height H) ("[sc" ++ toString i ++ "]"),
           Stage.overlay st.lastLabel ("[sc" ++ toString i ++ "]")
             (pyInt (ov.x * (W : ℚ))) (pyInt (ov.y * (H : ℚ)))
             ov.start_time ov.end_time ("[v" ++ toString (i + 1) ++ "]")]) := by
  constructor
  · intro w dim hw hw1
    have hne : ¬(w = 0) := ne_of_gt hw
    rw [targetW, show pyOr (some w) (1 / 5) = w by simp [pyOr, hne]]
    rw [evenDown]
    by_cases h : pyInt (w * (dim : ℚ)) % 2 = 0
    · rw [if_neg (by omega)]
      exact ⟨Int.even_iff.mpr h, le_refl _⟩
    · rw [if_pos (by omega)]
      exact ⟨Int.even_iff.mpr (by omega), by omega⟩
  · intro ae W H i ov st htype hex
    have ht : ¬(ov.type = "text") := by
      rcases htype with h | h <;> rw [h] <;> decide
    simp [stepOverlay, ht, htype, hex, List.length_append]

/-- Witness for C7 at width `1/2` on a 1920-wide frame and the concrete
image overlay `ovImg`. -/
theorem scale_dims_witness :
    (Even (targetW (some (1 / 2)) 1920) ∧
      targetW (some (1 / 2)) 1920 ≤ pyInt ((1 / 2 : ℚ) * ((1920 : ℤ) : ℚ))) ∧
    (stepOverlay (fun _ => true) 1920 1080 0 ovImg (initState "in.mp4")).stages =
      (initState "in.mp4").stages ++
        [Stage.scale ((((initState "in.mp4").inputArgs.length : ℤ) + 2) / 2 - 1)
          (targetW ovImg.width 1920) (targetW ovImg.height 1080) ("[sc" ++ toString 0 ++ "]"),
         Stage.overlay (initState "in.mp4").lastLabel ("[sc" ++ toString 0 ++ "]")
           (pyInt (ovImg.x * ((1920 : ℤ) : ℚ))) (pyInt (ovImg.y * ((1080 : ℤ) : ℚ)))
           ovImg.start_time ovImg.end_time ("[v" ++ toString (0 + 1) ++ "]")] :=
  ⟨scale_dims_even_rounddown_amended.1 (1 / 2) 1920 (by norm_num) (by norm_num),
    scale_dims_even_rounddown_amended.2 (fun _ => true) 1920 1080 0 ovImg (initState "in.mp4")
      (Or.inl rfl) rfl⟩

theorem plain_then {c : Char} (h : plainChar c = true) :
    ¬(c = ':') ∧ ¬(c = squote) ∧ ¬(c = bslash) := by
  simp [plainChar] at h
  exact ⟨h.1.1, h.1.2, h.2⟩

theorem splitTokens_colon (rest acc : List Char) :
    splitTokens (':' :: rest) false false acc =
      acc.reverse :: splitTokens rest false false [] := rfl

theorem splitTokens_plainStep {c : Char} (h : plainChar c = true) (rest acc : List Char) :
    splitTokens (c :: rest) false false acc = splitTokens rest false false (c :: acc) := by
  obtain ⟨h1, h2, h3⟩ := plain_then h
  simp [splitTokens, h1, h2, h3]

theorem splitTokens_qopen (rest acc : List Char) :
    splitTokens (squote :: rest) false false acc = splitTokens rest true false acc := rfl

theorem splitTokens_qclose (e : Bool) (rest acc : List Char) :
    splitTokens (squote :: rest) true e acc = splitTokens rest false e acc := rfl

theorem splitTokens_qlit {c : Char} (h : ¬(c = squote)) (e : Bool) (rest acc : List Char) :
    splitTokens (c :: rest) true e acc = splitTokens rest true e (c :: acc) := by
  simp [splitTokens, h]

theorem splitTokens_bs (rest acc : List Char) :
    splitTokens (bslash :: rest) false false acc = splitTokens rest false true acc := rfl

theorem splitTokens_esc (c : Char) (rest acc : List Char) :
    splitTokens (c :: rest) false true acc = splitTokens rest false false (c :: acc) := rfl

theorem splitTokens_plainRun :
    ∀ (xs : List Char), (∀ c ∈ xs, plainChar c = true) →
      ∀ rest acc, splitTokens (xs ++ rest) false false acc =
        splitTokens rest false false (xs.reverse ++ acc)
  | [], _, rest, acc => by simp
  | x :: xs, h, rest, acc => by
    have hx := h x (by simp)
    have ih := splitTokens_plainRun xs (fun c hc => h c (by simp [hc]))
    rw [List.cons_append, splitTokens_plainStep hx, ih, List.reverse_cons, List.append_assoc]
    rfl

theorem splitTokens_quotedRun :
    ∀ (xs : List Char), (∀ c ∈ xs, ¬(c = squote)) →
      ∀ rest acc, splitTokens (xs ++ rest) true false acc =
        splitTokens rest true false (xs.reverse ++ acc)
  | [], _, rest, acc => by simp
  | x :: xs, h, rest, acc => by
    have hx := h x (by simp)
    have ih := splitTokens_quotedRun xs (fun c hc => h c (by simp [hc]))
    rw [List.cons_append, splitTokens_qlit hx, ih, List.reverse_cons, List.append_assoc]
    rfl

/-- Inside a quoted section, the escaped content followed by the closing
quote is consumed whole: the quoted argument cannot be terminated early by
content characters, and the token receives `colEsc` of the content. -/
theorem splitTokens_escaped :
    ∀ (cs rest acc : List Char),
      splitTokens (escapeChars cs ++ squote :: rest) true false acc =
        splitTokens rest false false ((colEsc cs).reverse ++ acc)
  | [], rest, acc => by simp [escapeChars, colEsc, splitTokens_qclose]
  | c :: cs, rest, acc => by
    by_cases hq : c = squote
    · subst hq
      rw [show escapeChars (squote :: cs) =
        squote :: bslash :: squote :: squote :: escapeChars cs from by simp [escapeChars, escChar]]
      simp only [List.cons_append]
      rw [splitTokens_qclose, splitTokens_bs, splitTokens_esc, splitTokens_qopen,
        splitTokens_escaped cs]
      simp [colEsc, show ¬(squote = ':') by decide]
    · by_cases hc : c = ':'
      · subst hc
        rw [show escapeChars (':' :: cs) = bslash :: ':' :: escapeChars cs from by
          simp [escapeChars, escChar, show ¬((':' : Char) = squote) by decide]]
        simp only [List.cons_append]
        rw [splitTokens_qlit (show ¬(bslash = squote) by decide),
          splitTokens_qlit (show ¬((':' : Char) = squote) by decide), splitTokens_escaped cs]
        simp [colEsc]
      · rw [show escapeChars (c :: cs) = c :: escapeChars cs from by
          simp [escapeChars, escChar, hq, hc]]
        simp only [List.cons_append]
        rw [splitTokens_qlit hq, splitTokens_escaped cs]
        simp [colEsc, hc]

/-- C9: tokenizing the emitted draw-text argument string with the
transcoder's quoting rules yields exactly the six intended options: the text
option carries the whole content (colons with a cosmetic leading backslash,
everything else verbatim), and no content character terminates the quoted
text argument or acts as an option separator. -/
theorem drawtext_escaping_token_safe (content : String) (fsS xS yS stS enS : List Char)
    (hfs : ∀ c ∈ fsS, plainChar c = true) (hx : ∀ c ∈ xS, plainChar c = true)
    (hy : ∀ c ∈ yS, plainChar c = true) (hst : ∀ c ∈ stS, plainChar c = true)
    (hen : ∀ c ∈ enS, plainChar c = true) :
    splitTokens (drawtextArgsChars content fsS xS yS stS enS) false false [] =
      ["text=".data ++ colEsc content.data,
       "fontcolor=white".data,
       "fontsize=".data ++ fsS,
       "x=".data ++ xS,
       "y=".data ++ yS,
       "enable=".data ++ "between(t,".data ++ stS ++ ',' :: enS ++ [')']] := by
  have hp1 : ∀ c ∈ "text=".data, plainChar c = true := by decide
  have hp2 : ∀ c ∈ "fontcolor=white".data, plainChar c = true := by decide
  have hp3 : ∀ c ∈ "fontsize=".data, plainChar c = true := by decide
  have hp4 : ∀ c ∈ "x=".data, plainChar c = true := by decide
  have hp5 : ∀ c ∈ "y=".data, plainChar c = true := by decide
  have hp6 : ∀ c ∈ "enable=".data, plainChar c = true := by decide
  have hq1 : ∀ c ∈ "between(t,".data, ¬(c = squote) := by decide
  have hqst : ∀ c ∈ stS, ¬(c = squote) := fun c hc => (plain_then (hst c hc)).2.1
  have hqen : ∀ c ∈ enS, ¬(c = squote) := fun c hc => (plain_then (hen c hc)).2.1
  rw [drawtextArgsChars]
  rw [splitTokens_plainRun "text=".data hp1, splitTokens_qopen, splitTokens_escaped,
    splitTokens_colon, splitTokens_plainRun "fontcolor=white".data hp2, splitTokens_colon,
    splitTokens_plainRun "fontsize=".data hp3, splitTokens_plainRun fsS hfs,
    splitTokens_colon, splitTokens_plainRun "x=".data hp4, splitTokens_plainRun xS hx,
    splitTokens_colon, splitTokens_plainRun "y=".data hp5, splitTokens_plainRun yS hy,
    splitTokens_colon, splitTokens_plainRun "enable=".data hp6, splitTokens_qopen,
    splitTokens_quotedRun "between(t,".data hq1, splitTokens_quotedRun stS hqst,
    splitTokens_qlit (show ¬((',' : Char) = squote) by decide),
    splitTokens_quotedRun enS hqen,
    splitTokens_qlit (show ¬((')' : Char) = squote) by decide), splitTokens_qclose]
  rw [show ∀ acc : List Char, splitTokens [] false false acc = [acc.reverse] from fun _ => rfl]
  simp

/-- Witness for C9: content containing both a quote and a colon, with the
rendered numbers of the spec's example. -/
theorem drawtext_escaping_witness :
    splitTokens
        (drawtextArgsChars (String.mk ['a', squote, 'b', ':', 'c'])
          "216".data "960".data "540".data "1.0".data "3.0".data) false false [] =
      ["text=".data ++ colEsc (String.mk ['a', squote, 'b', ':', 'c']).data,
       "fontcolor=white".data,
       "fontsize=".data ++ "216".data,
       "x=".data ++ "960".data,
       "y=".data ++ "540".data,
       "enable=".data ++ "between(t,".data ++ "1.0".data ++ ',' :: "3.0".data ++ [')']] :=
  drawtext_escaping_token_safe (String.mk ['a', squote, 'b', ':', 'c']) _ _ _ _ _
    (by decide) (by decide) (by decide) (by decide) (by decide)

/-- Witness for C2 at a concrete marker and a concrete malformed string. -/
theorem progress_extraction_witness :
    extractProgress 100 (String.mk (timeLineChars 0 0 50 0 [])) =
      some (min ⌊((((0 : ℕ) : ℚ) * 3600 + ((0 : ℕ) : ℚ) * 60 +
        (((50 : ℕ) : ℚ) + ((0 : ℕ) : ℚ) / 100)) / 100) * 100⌋ 99) ∧
    time_str_to_sec "not a time" = 0 :=
  ⟨progress_extraction_correct.1 0 0 50 0 100 [] (by norm_num) (by norm_num) (by norm_num)
      (by norm_num) (by norm_num),
    progress_extraction_correct.2.2 "not a time" (by decide)⟩

end VideoApp
